import Mathlib

/-!
Verification of the time-of-day lighting engine and the player/camera motion
integrator of the gltf-viewer-player repository.

The day/night subsystem (`src/TimeOfDay.js`, class `TimeOfDaySystem`) performs
only rational arithmetic on its colors, intensities and clock, so it is
embedded over `ℚ`; the sun-orbit geometry uses `Math.sin`/`Math.cos`/`Math.PI`
and is embedded over `ℝ`.  The player integrator (`Player` class) and the
camera direction vectors (`CameraController`) use trigonometry and vector
normalization, so they are embedded over `ℝ`.
-/

namespace GltfViewer

/-- An RGB color with components in [0,1], as stored by `THREE.Color`.
A color constructed from a hex literal `0xrrggbb` has components
`rr/255`, `gg/255`, `bb/255`. -/
structure Color where
  r : ℚ
  g : ℚ
  b : ℚ
deriving DecidableEq, Repr

/-- `THREE.Color().lerpColors(c1, c2, t)`: componentwise `c1 + (c2 - c1) * t`. -/
def Color.lerpColors (c1 c2 : Color) (t : ℚ) : Color :=
  ⟨c1.r + (c2.r - c1.r) * t, c1.g + (c2.g - c1.g) * t, c1.b + (c2.b - c1.b) * t⟩

/-- `THREE.MathUtils.lerp(x, y, t) = (1 - t) * x + t * y`. -/
def mathLerp (x y t : ℚ) : ℚ := (1 - t) * x + t * y

/-- One entry of `timeColorPresets` in `TimeOfDay.js`:
sky, sun, ambient and fog colors plus a sun intensity. -/
structure TimePreset where
  sky : Color
  sun : Color
  ambient : Color
  fog : Color
  sunIntensity : ℚ
deriving DecidableEq, Repr

/-- Color from a hex literal's three byte components. -/
def hexColor (r g b : ℕ) : Color := ⟨(r : ℚ) / 255, (g : ℚ) / 255, (b : ℚ) / 255⟩

namespace timeColorPresets

/-- Night preset: sky 0x000000, sun 0x4060ff, ambient 0x202050, fog 0x000000,
intensity 0.1. -/
def night : TimePreset :=
  ⟨hexColor 0 0 0, hexColor 0x40 0x60 0xff, hexColor 0x20 0x20 0x50, hexColor 0 0 0, 1/10⟩

/-- Dawn preset: sun 0xff9a56, ambient 0xff8c69, intensity 0.6. -/
def dawn : TimePreset :=
  ⟨hexColor 0 0 0, hexColor 0xff 0x9a 0x56, hexColor 0xff 0x8c 0x69, hexColor 0 0 0, 6/10⟩

/-- Morning preset: sun 0xfffacd, ambient 0xfff8dc, intensity 1.2. -/
def morning : TimePreset :=
  ⟨hexColor 0 0 0, hexColor 0xff 0xfa 0xcd, hexColor 0xff 0xf8 0xdc, hexColor 0 0 0, 12/10⟩

/-- Noon preset: sun 0xfffaf0, ambient 0xffffff, intensity 2.0. -/
def noon : TimePreset :=
  ⟨hexColor 0 0 0, hexColor 0xff 0xfa 0xf0, hexColor 0xff 0xff 0xff, hexColor 0 0 0, 2⟩

/-- Afternoon preset: sun 0xffd700, ambient 0xffefd5, intensity 1.5. -/
def afternoon : TimePreset :=
  ⟨hexColor 0 0 0, hexColor 0xff 0xd7 0x00, hexColor 0xff 0xef 0xd5, hexColor 0 0 0, 15/10⟩

/-- Dusk preset: sun 0xff4500, ambient 0xff7f50, intensity 0.5. -/
def dusk : TimePreset :=
  ⟨hexColor 0 0 0, hexColor 0xff 0x45 0x00, hexColor 0xff 0x7f 0x50, hexColor 0 0 0, 5/10⟩

/-- Evening preset: sun 0x4169e1, ambient 0x483d8b, intensity 0.2. -/
def evening : TimePreset :=
  ⟨hexColor 0 0 0, hexColor 0x41 0x69 0xe1, hexColor 0x48 0x3d 0x8b, hexColor 0 0 0, 2/10⟩

end timeColorPresets

/-- `TimeOfDaySystem.lerpColors(preset1, preset2, t)`: lerp every color field
with `Color.lerpColors` and the intensity with `THREE.MathUtils.lerp`. -/
def lerpColors (p1 p2 : TimePreset) (t : ℚ) : TimePreset :=
  ⟨Color.lerpColors p1.sky p2.sky t,
   Color.lerpColors p1.sun p2.sun t,
   Color.lerpColors p1.ambient p2.ambient t,
   Color.lerpColors p1.fog p2.fog t,
   mathLerp p1.sunIntensity p2.sunIntensity t⟩

/-- `TimeOfDaySystem.getColorsForTime(time)`: the if/else-if chain over the
interval boundaries 0/5/7/9/11/15/17/19/21, ending in the unconditional
evening-to-night branch with fraction `(time - 21) / 3`. -/
def getColorsForTime (time : ℚ) : TimePreset :=
  if 0 ≤ time ∧ time < 5 then
    timeColorPresets.night
  else if 5 ≤ time ∧ time < 7 then
    lerpColors timeColorPresets.night timeColorPresets.dawn ((time - 5) / 2)
  else if 7 ≤ time ∧ time < 9 then
    lerpColors timeColorPresets.dawn timeColorPresets.morning ((time - 7) / 2)
  else if 9 ≤ time ∧ time < 11 then
    lerpColors timeColorPresets.morning timeColorPresets.noon ((time - 9) / 2)
  else if 11 ≤ time ∧ time < 15 then
    timeColorPresets.noon
  else if 15 ≤ time ∧ time < 17 then
    lerpColors timeColorPresets.noon timeColorPresets.afternoon ((time - 15) / 2)
  else if 17 ≤ time ∧ time < 19 then
    lerpColors timeColorPresets.afternoon timeColorPresets.dusk ((time - 17) / 2)
  else if 19 ≤ time ∧ time < 21 then
    lerpColors timeColorPresets.dusk timeColorPresets.evening ((time - 19) / 2)
  else
    lerpColors timeColorPresets.evening timeColorPresets.night ((time - 21) / 3)

/-- `updateSunPosition`: the sun angle `((time - 6) / 12) * Math.PI`. -/
noncomputable def sunAngle (time : ℚ) : ℝ := (((time : ℝ) - 6) / 12) * Real.pi

/-- The Y component of the orbit-rotated sun position in `updateSunPosition`:
the base orbital point `(cos(a)·R, sin(a)·R, 0)` transformed by the second row
of `THREE.Matrix4.makeRotationFromEuler` for an `XYZ` Euler
`(rx, ry, rz)` (column-major entries `te[1]`, `te[5]`, `te[9]`). -/
noncomputable def rotatedSunY (rx ry rz dist time : ℚ) : ℝ :=
  let a := sunAngle time
  let x := Real.cos a * (dist : ℝ)
  let y := Real.sin a * (dist : ℝ)
  let z : ℝ := 0
  (Real.cos rx * Real.sin rz + Real.sin rx * Real.cos rz * Real.sin ry) * x
    + (Real.cos rx * Real.cos rz - Real.sin rx * Real.sin rz * Real.sin ry) * y
    + (-(Real.sin rx) * Real.cos ry) * z

/-- The state of a `TimeOfDaySystem` instance, together with the fields it
mutates on its collaborators: the scene background/fog, the directional
light's color and intensity, the hemisphere light's colors, and the sun
mesh's color and visibility flag. -/
structure TODState where
  timeOfDay : ℚ
  timeSpeed : ℚ
  enabled : Bool
  sunIntensity : ℚ
  sunDistance : ℚ
  orbitX : ℚ
  orbitY : ℚ
  orbitZ : ℚ
  sceneBackground : Color
  fogColor : Color
  lightColor : Color
  lightIntensity : ℚ
  hemiSkyColor : Color
  hemiGroundColor : Color
  sunMeshColor : Color
  sunMeshVisible : Prop

/-- `updateLighting()`: recompute every lighting output from the current
`timeOfDay` (scene colors, directional light color/intensity, hemisphere
colors), then `updateSunPosition(timeOfDay)` sets the sun mesh color and its
visibility `position.y > 0` after the orbit rotation. -/
noncomputable def updateLighting (s : TODState) : TODState :=
  let colors := getColorsForTime s.timeOfDay
  { s with
    sceneBackground := colors.sky
    fogColor := colors.fog
    lightColor := colors.sun
    lightIntensity := colors.sunIntensity * s.sunIntensity
    hemiSkyColor := colors.sky
    hemiGroundColor := colors.ambient
    sunMeshColor := colors.sun
    sunMeshVisible := 0 < rotatedSunY s.orbitX s.orbitY s.orbitZ s.sunDistance s.timeOfDay }

/-- `update(deltaTime)`: if enabled, advance `timeOfDay` by
`deltaTime * timeSpeed / 3600` and subtract 24 once when the result reached
24; in every case run `updateLighting()` afterwards. -/
noncomputable def update (deltaTime : ℚ) (s : TODState) : TODState :=
  let s1 :=
    if s.enabled then
      let t := s.timeOfDay + deltaTime * s.timeSpeed / 3600
      { s with timeOfDay := if 24 ≤ t then t - 24 else t }
    else s
  updateLighting s1

/-- `setTime(time)`: store the argument unchanged and recompute the lighting. -/
noncomputable def setTime (time : ℚ) (s : TODState) : TODState :=
  updateLighting { s with timeOfDay := time }

/-- `setTimeSpeed(speed)`. -/
def setTimeSpeed (speed : ℚ) (s : TODState) : TODState :=
  { s with timeSpeed := speed }

/-- `setSunIntensity(intensity)`: store and recompute the lighting. -/
noncomputable def setSunIntensity (intensity : ℚ) (s : TODState) : TODState :=
  updateLighting { s with sunIntensity := intensity }

/-- `setEnabled(enabled)`. -/
def setEnabled (enabled : Bool) (s : TODState) : TODState :=
  { s with enabled := enabled }

/-- The state right after the `TimeOfDaySystem` constructor: `timeOfDay = 12`,
`timeSpeed = 10`, `enabled = false`, `sunIntensity = 0.8`, `sunDistance = 50`,
orbit rotation `(0, 0, 0)`.  The lighting collaborator fields stand for the
injected lights' initial values (overwritten by the first `updateLighting`);
the sun mesh is created visible with color 0xfffaf0. -/
def initState : TODState :=
  { timeOfDay := 12
    timeSpeed := 10
    enabled := false
    sunIntensity := 8/10
    sunDistance := 50
    orbitX := 0
    orbitY := 0
    orbitZ := 0
    sceneBackground := hexColor 0 0 0
    fogColor := hexColor 0 0 0
    lightColor := hexColor 0xff 0xff 0xff
    lightIntensity := 1
    hemiSkyColor := hexColor 0xff 0xff 0xff
    hemiGroundColor := hexColor 0xff 0xff 0xff
    sunMeshColor := hexColor 0xff 0xfa 0xf0
    sunMeshVisible := True }

/-- A 3D vector (`THREE.Vector3`). -/
structure Vec3 where
  x : ℝ
  y : ℝ
  z : ℝ

namespace Vec3

/-- Componentwise addition (`Vector3.add`). -/
def add (v w : Vec3) : Vec3 := ⟨v.x + w.x, v.y + w.y, v.z + w.z⟩

/-- Componentwise subtraction (`Vector3.sub`). -/
def sub (v w : Vec3) : Vec3 := ⟨v.x - w.x, v.y - w.y, v.z - w.z⟩

/-- `Vector3.multiplyScalar`. -/
def smul (c : ℝ) (v : Vec3) : Vec3 := ⟨c * v.x, c * v.y, c * v.z⟩

/-- `Vector3.length()`. -/
noncomputable def len (v : Vec3) : ℝ := Real.sqrt (v.x ^ 2 + v.y ^ 2 + v.z ^ 2)

/-- `Vector3.normalize()`: divide each component by the length. -/
noncomputable def normalize (v : Vec3) : Vec3 := ⟨v.x / v.len, v.y / v.len, v.z / v.len⟩

end Vec3

/-- `CameraController.getForwardVector()`: `(0, 0, -1)` rotated by the yaw
about the Y axis. -/
noncomputable def getForwardVector (yaw : ℝ) : Vec3 :=
  ⟨-Real.sin yaw, 0, -Real.cos yaw⟩

/-- `CameraController.getRightVector()`: `(1, 0, 0)` rotated by the yaw
about the Y axis. -/
noncomputable def getRightVector (yaw : ℝ) : Vec3 :=
  ⟨Real.cos yaw, 0, -Real.sin yaw⟩

/-- The `Player.keys` input record. -/
structure Keys where
  forward : Bool
  backward : Bool
  left : Bool
  right : Bool
  jump : Bool
  up : Bool
  down : Bool
  sprint : Bool

/-- All keys released. -/
def Keys.none : Keys := ⟨false, false, false, false, false, false, false, false⟩

/-- The mutable fields of the `Player` class that the movement integrators
touch, plus the motion constants. -/
structure PlayerState where
  position : Vec3
  velocity : Vec3
  speed : ℝ
  fastSpeed : ℝ
  jumpForce : ℝ
  gravity : ℝ
  isGrounded : Bool
  groundLevel : ℝ

/-- The key-gated sum of the camera forward/right vectors built in
`updatePlayerMovement` / `updateFreeCamera` (lines 314–317 / 368–371). -/
noncomputable def moveDirRaw (yaw : ℝ) (k : Keys) : Vec3 :=
  let m0 : Vec3 := ⟨0, 0, 0⟩
  let m1 := if k.forward then m0.add (getForwardVector yaw) else m0
  let m2 := if k.backward then m1.sub (getForwardVector yaw) else m1
  let m3 := if k.left then m2.sub (getRightVector yaw) else m2
  let m4 := if k.right then m3.add (getRightVector yaw) else m3
  m4

/-- Normalize the move direction when its length is positive
(`if (moveDirection.length() > 0) moveDirection.normalize()`). -/
noncomputable def normalizeIfPos (v : Vec3) : Vec3 :=
  if 0 < v.len then v.normalize else v

/-- `Player.updatePlayerMovement(deltaTime, cameraController)`: the grounded
integrator used in first- and third-person modes.  Horizontal velocity is the
normalized key-gated direction scaled by the current speed; gravity is added
to the vertical velocity; a jump while grounded overwrites the vertical
velocity with `jumpForce` and clears the grounded flag; the position is
advanced by `velocity * deltaTime`; finally positions at or below
`groundLevel` are clamped to it, zeroing the vertical velocity and setting
the grounded flag. -/
noncomputable def updatePlayerMovement (deltaTime yaw : ℝ) (k : Keys)
    (s : PlayerState) : PlayerState :=
  let currentSpeed := if k.sprint then s.fastSpeed else s.speed
  let md := (normalizeIfPos (moveDirRaw yaw k)).smul currentSpeed
  let vy1 := s.velocity.y + s.gravity * deltaTime
  let vel2 : Vec3 :=
    if k.jump && s.isGrounded then ⟨md.x, s.jumpForce, md.z⟩ else ⟨md.x, vy1, md.z⟩
  let grounded2 := if k.jump && s.isGrounded then false else s.isGrounded
  let pos1 : Vec3 :=
    ⟨s.position.x + vel2.x * deltaTime, s.position.y + vel2.y * deltaTime,
     s.position.z + vel2.z * deltaTime⟩
  if pos1.y ≤ s.groundLevel then
    { s with position := ⟨pos1.x, s.groundLevel, pos1.z⟩
             velocity := ⟨vel2.x, 0, vel2.z⟩
             isGrounded := true }
  else
    { s with position := pos1, velocity := vel2, isGrounded := grounded2 }

/-- `Player.updateFreeCamera(deltaTime, cameraController)`: free-camera
motion.  The key-gated horizontal direction additionally gets `+1`/`-1`
added to its y component for the up/down keys, is then normalized when
nonzero, scaled by `currentSpeed * deltaTime`, and added to the camera
position (which the player position then copies).  Returns the new camera
position. -/
noncomputable def updateFreeCamera (deltaTime yaw : ℝ) (k : Keys)
    (speed fastSpeed : ℝ) (camPos : Vec3) : Vec3 :=
  let m4 := moveDirRaw yaw k
  let mU := if k.up then (⟨m4.x, m4.y + 1, m4.z⟩ : Vec3) else m4
  let mD := if k.down then (⟨mU.x, mU.y - 1, mU.z⟩ : Vec3) else mU
  let mN := normalizeIfPos mD
  let currentSpeed := if k.sprint then fastSpeed else speed
  camPos.add (mN.smul (currentSpeed * deltaTime))

/-- A player standing on the ground with the constructor's motion constants:
`speed = 0.30`, `fastSpeed = 0.60`, `jumpForce = 0.3`, `gravity = -1.0`,
`groundLevel = 0.30`. -/
noncomputable def groundedPlayer : PlayerState :=
  { position := ⟨0, 3/10, 5⟩
    velocity := ⟨0, 0, 0⟩
    speed := 3/10
    fastSpeed := 6/10
    jumpForce := 3/10
    gravity := -1
    isGrounded := true
    groundLevel := 3/10 }

/-! ## Helper lemmas -/

lemma updateLighting_timeOfDay (s : TODState) :
    (updateLighting s).timeOfDay = s.timeOfDay := rfl

lemma update_timeSpeed (dt : ℚ) (s : TODState) :
    (update dt s).timeSpeed = s.timeSpeed := by
  unfold update updateLighting
  split <;> rfl

lemma update_enabled (dt : ℚ) (s : TODState) :
    (update dt s).enabled = s.enabled := by
  unfold update updateLighting
  split <;> rfl

lemma update_timeOfDay_of_enabled (dt : ℚ) (s : TODState) (h : s.enabled = true) :
    (update dt s).timeOfDay =
      if 24 ≤ s.timeOfDay + dt * s.timeSpeed / 3600 then
        s.timeOfDay + dt * s.timeSpeed / 3600 - 24
      else
        s.timeOfDay + dt * s.timeSpeed / 3600 := by
  simp [update, updateLighting, h]

lemma update_timeOfDay_of_disabled (dt : ℚ) (s : TODState) (h : s.enabled = false) :
    (update dt s).timeOfDay = s.timeOfDay := by
  simp [update, updateLighting, h]

/-! ## Claims about the day/night clock and color curve -/

/-- C1: the color/intensity curve of `getColorsForTime` is continuous over
the day.  For each interval boundary `b ∈ {5,7,9,11,15,17,19,21}`, the
preceding interval's interpolation formula (whose lerp fraction reaches 1,
or which is a constant preset) evaluated at `b` equals `getColorsForTime b`,
and the formula of the final 21–24 interval evaluated at 24 equals the
night value returned on `[0,5)`, so the curve wraps continuously at 0/24. -/
theorem getColorsForTime_continuous :
    timeColorPresets.night = getColorsForTime 5 ∧
    lerpColors timeColorPresets.night timeColorPresets.dawn ((7 - 5) / 2) =
      getColorsForTime 7 ∧
    lerpColors timeColorPresets.dawn timeColorPresets.morning ((9 - 7) / 2) =
      getColorsForTime 9 ∧
    lerpColors timeColorPresets.morning timeColorPresets.noon ((11 - 9) / 2) =
      getColorsForTime 11 ∧
    timeColorPresets.noon = getColorsForTime 15 ∧
    lerpColors timeColorPresets.noon timeColorPresets.afternoon ((17 - 15) / 2) =
      getColorsForTime 17 ∧
    lerpColors timeColorPresets.afternoon timeColorPresets.dusk ((19 - 17) / 2) =
      getColorsForTime 19 ∧
    lerpColors timeColorPresets.dusk timeColorPresets.evening ((21 - 19) / 2) =
      getColorsForTime 21 ∧
    lerpColors timeColorPresets.evening timeColorPresets.night ((24 - 21) / 3) =
      getColorsForTime 0 := by
  norm_num [getColorsForTime, lerpColors, Color.lerpColors, mathLerp, hexColor,
    timeColorPresets.night, timeColorPresets.dawn, timeColorPresets.morning,
    timeColorPresets.noon, timeColorPresets.afternoon, timeColorPresets.dusk,
    timeColorPresets.evening]

/-- C2: with `enabled = true`, `update(dt)` advances `timeOfDay` by exactly
`dt * timeSpeed / 3600`, subtracting 24 once when the sum reaches 24; with
`enabled = false` it leaves `timeOfDay` unchanged while still recomputing
the lighting outputs from the stored time; and with `timeSpeed = 0` any
number of repeated `update(dt)` calls leaves an in-range `timeOfDay`
unchanged. -/
theorem update_advances_time :
    (∀ (s : TODState) (dt : ℚ), s.enabled = true →
      (update dt s).timeOfDay =
        if 24 ≤ s.timeOfDay + dt * s.timeSpeed / 3600 then
          s.timeOfDay + dt * s.timeSpeed / 3600 - 24
        else
          s.timeOfDay + dt * s.timeSpeed / 3600) ∧
    (∀ (s : TODState) (dt : ℚ), s.enabled = false →
      (update dt s).timeOfDay = s.timeOfDay ∧
      (update dt s).lightColor = (getColorsForTime s.timeOfDay).sun ∧
      (update dt s).lightIntensity =
        (getColorsForTime s.timeOfDay).sunIntensity * s.sunIntensity ∧
      (update dt s).sceneBackground = (getColorsForTime s.timeOfDay).sky ∧
      (update dt s).hemiGroundColor = (getColorsForTime s.timeOfDay).ambient) ∧
    (∀ (s : TODState) (dt : ℚ) (n : ℕ), s.timeSpeed = 0 → s.timeOfDay < 24 →
      ((update dt)^[n] s).timeOfDay = s.timeOfDay) := by
  refine ⟨fun s dt h => update_timeOfDay_of_enabled dt s h,
    fun s dt h => ?_, fun s dt n h0 h24 => ?_⟩
  · simp [update, updateLighting, h]
  · induction n generalizing s with
    | zero => rfl
    | succ n ih =>
      rw [Function.iterate_succ_apply]
      have hspeed : (update dt s).timeSpeed = 0 := by rw [update_timeSpeed]; exact h0
      have htime : (update dt s).timeOfDay = s.timeOfDay := by
        rcases he : s.enabled with _ | _
        · exact update_timeOfDay_of_disabled dt s he
        · rw [update_timeOfDay_of_enabled dt s he, h0]
          norm_num
          linarith
      rw [ih (update dt s) hspeed (by rw [htime]; exact h24), htime]

/-- C3 counterexample: from the in-range time 0 with `timeSpeed = 172800`
(48 hours per second) and `dt = 1 ≥ 0`, `update` leaves `timeOfDay = 24`,
which is not in `[0, 24)`: the wrap is a single subtraction of 24, not a
reduction modulo 24. -/
theorem update_wrap_violation :
    (0 : ℚ) ≤
        ({ initState with timeOfDay := 0, timeSpeed := 172800, enabled := true } :
          TODState).timeOfDay ∧
      ({ initState with timeOfDay := 0, timeSpeed := 172800, enabled := true } :
          TODState).timeOfDay < 24 ∧
      (0 : ℚ) ≤ 1 ∧
      ¬ (update 1
          ({ initState with timeOfDay := 0, timeSpeed := 172800, enabled := true } :
            TODState)).timeOfDay < 24 := by
  norm_num [update, updateLighting, initState]

/-- C3 (amended): when the advance `dt * timeSpeed / 3600` is itself between
0 and 24, an in-range `timeOfDay` stays in `[0, 24)` across `update`; in
particular `setTime(23.9); setTimeSpeed(3600); update(1)` (with the system
enabled) yields `timeOfDay = 0.9`, wrapped rather than 24.9. -/
theorem update_wraps_in_range :
    (∀ (s : TODState) (dt : ℚ), 0 ≤ s.timeOfDay → s.timeOfDay < 24 →
      0 ≤ dt * s.timeSpeed / 3600 → dt * s.timeSpeed / 3600 ≤ 24 →
      0 ≤ (update dt s).timeOfDay ∧ (update dt s).timeOfDay < 24) ∧
    (update 1 (setTimeSpeed 3600 (setTime (239/10) (setEnabled true initState)))).timeOfDay
      = 9/10 := by
  constructor
  · intro s dt h0 h24 ha0 ha24
    rcases he : s.enabled with _ | _
    · rw [update_timeOfDay_of_disabled dt s he]
      exact ⟨h0, h24⟩
    · rw [update_timeOfDay_of_enabled dt s he]
      split <;> constructor <;> linarith
  · norm_num [update, updateLighting, setTime, setTimeSpeed, setEnabled, initState]

/-- C3 amended-claim witness at a concrete state: `timeOfDay = 12`,
`timeSpeed = 10`, `dt = 1`. -/
theorem update_wraps_in_range_witness :
    (0 : ℚ) ≤ ({ initState with enabled := true } : TODState).timeOfDay ∧
      ({ initState with enabled := true } : TODState).timeOfDay < 24 ∧
      0 ≤ (1 : ℚ) * ({ initState with enabled := true } : TODState).timeSpeed / 3600 ∧
      (1 : ℚ) * ({ initState with enabled := true } : TODState).timeSpeed / 3600 ≤ 24 ∧
      0 ≤ (update 1 ({ initState with enabled := true } : TODState)).timeOfDay ∧
      (update 1 ({ initState with enabled := true } : TODState)).timeOfDay < 24 := by
  have h1 : (0 : ℚ) ≤ ({ initState with enabled := true } : TODState).timeOfDay := by
    norm_num [initState]
  have h2 : ({ initState with enabled := true } : TODState).timeOfDay < 24 := by
    norm_num [initState]
  have h3 : 0 ≤ (1 : ℚ) * ({ initState with enabled := true } : TODState).timeSpeed / 3600 := by
    norm_num [initState]
  have h4 : (1 : ℚ) * ({ initState with enabled := true } : TODState).timeSpeed / 3600 ≤ 24 := by
    norm_num [initState]
  obtain ⟨h5, h6⟩ :=
    update_wraps_in_range.1 ({ initState with enabled := true }) 1 h1 h2 h3 h4
  exact ⟨h1, h2, h3, h4, h5, h6⟩

/-- C10 counterexample: `setTime(25)` stores `timeOfDay = 25`, which is not
in `[0, 24)`: `setTime` performs no clamping or wrapping. -/
theorem setTime_range_violation :
    (setTime 25 initState).timeOfDay = 25 ∧
      ¬ (setTime 25 initState).timeOfDay < 24 := by
  norm_num [setTime, updateLighting]

/-- C10 (amended): `setTime(t)` stores `t` unchanged for every `t`
(including `t < 0` and `t ≥ 24`) and immediately recomputes the lighting
from the raw stored value; an out-of-range `t` therefore falls through to
the final evening-to-night branch with fraction `(t - 21) / 3` outside
`[0, 1]`, so the recomputed lighting is an extrapolation that differs from
the lighting of the in-range representative (e.g. `t = 25` vs `t = 1`). -/
theorem setTime_stores_raw :
    (∀ (t : ℚ) (s : TODState),
      (setTime t s).timeOfDay = t ∧
      (setTime t s).lightColor = (getColorsForTime t).sun ∧
      (setTime t s).lightIntensity =
        (getColorsForTime t).sunIntensity * s.sunIntensity) ∧
    getColorsForTime 25 =
      lerpColors timeColorPresets.evening timeColorPresets.night ((25 - 21) / 3) ∧
    getColorsForTime (-1) =
      lerpColors timeColorPresets.evening timeColorPresets.night ((-1 - 21) / 3) ∧
    getColorsForTime 25 ≠ getColorsForTime 1 := by
  refine ⟨fun t s => ⟨rfl, rfl, rfl⟩, by norm_num [getColorsForTime],
    by norm_num [getColorsForTime], ?_⟩
  norm_num [getColorsForTime, lerpColors, Color.lerpColors, mathLerp, hexColor,
    timeColorPresets.night, timeColorPresets.evening]

/-- C2 witness: concrete instances of all three parts (enabled advance,
disabled no-op with lighting recompute, speed-zero iteration). -/
theorem update_advances_time_witness :
    ({ initState with enabled := true } : TODState).enabled = true ∧
      (update 360 ({ initState with enabled := true } : TODState)).timeOfDay = 13 ∧
      initState.enabled = false ∧
      (update 5 initState).timeOfDay = 12 ∧
      ((update 7)^[3] ({ initState with timeSpeed := 0 } : TODState)).timeOfDay = 12 := by
  refine ⟨rfl, ?_, rfl, ?_, ?_⟩
  · have h := update_advances_time.1 ({ initState with enabled := true }) 360 rfl
    rw [h]; norm_num [initState]
  · exact ((update_advances_time.2.1 initState 5 rfl).1).trans (by norm_num [initState])
  · have h := update_advances_time.2.2 ({ initState with timeSpeed := 0 }) 7 3 rfl
      (by norm_num [initState])
    rw [h]; norm_num [initState]

/-! ## Sun position and visibility -/

lemma rotatedSunY_zero_orbit (d t : ℚ) :
    rotatedSunY 0 0 0 d t = Real.sin (sunAngle t) * (d : ℝ) := by
  simp [rotatedSunY]

/-- The sign of the sun's unrotated height over a full day: positive exactly
between 6:00 and 18:00. -/
lemma sunAngle_sin_pos_iff (t : ℚ) (h0 : 0 ≤ t) (h24 : t < 24) :
    0 < Real.sin (sunAngle t) ↔ 6 < t ∧ t < 18 := by
  have hpi := Real.pi_pos
  have ht0 : (0 : ℝ) ≤ (t : ℝ) := by exact_mod_cast h0
  have ht24 : ((t : ℝ)) < 24 := by exact_mod_cast h24
  constructor
  · intro hs
    by_contra hc
    push_neg at hc
    rcases le_or_lt t 6 with h6 | h6
    · have h6' : ((t : ℝ)) ≤ 6 := by exact_mod_cast h6
      have hle : sunAngle t ≤ 0 := by unfold sunAngle; nlinarith
      have hge : -Real.pi ≤ sunAngle t := by unfold sunAngle; nlinarith
      have := Real.sin_nonpos_of_nonnpos_of_neg_pi_le hle hge
      linarith
    · have h18 : (18 : ℚ) ≤ t := hc h6
      have h18' : (18 : ℝ) ≤ (t : ℝ) := by exact_mod_cast h18
      have h1 : 0 ≤ sunAngle t - Real.pi := by unfold sunAngle; nlinarith
      have h2 : sunAngle t - Real.pi ≤ Real.pi := by unfold sunAngle; nlinarith
      have h3 := Real.sin_nonneg_of_nonneg_of_le_pi h1 h2
      rw [Real.sin_sub_pi] at h3
      linarith
  · rintro ⟨h6, h18⟩
    have h6' : (6 : ℝ) < (t : ℝ) := by exact_mod_cast h6
    have h18' : ((t : ℝ)) < 18 := by exact_mod_cast h18
    apply Real.sin_pos_of_pos_of_lt_pi
    · unfold sunAngle; nlinarith
    · unfold sunAngle; nlinarith

/-- C4: the sun mesh is visible exactly when the Y component of the
orbit-rotated sun position is strictly positive; with the orbit rotation at
the identity and the default distance, the sun is visible for
`timeOfDay ∈ (6, 18)` and hidden on `[0, 6] ∪ [18, 24)`, independently of
the interpolated sun intensity. -/
theorem sun_visible_iff :
    (∀ s : TODState,
      ((updateLighting s).sunMeshVisible ↔
        0 < rotatedSunY s.orbitX s.orbitY s.orbitZ s.sunDistance s.timeOfDay)) ∧
    (∀ s : TODState, s.orbitX = 0 → s.orbitY = 0 → s.orbitZ = 0 →
      s.sunDistance = 50 → 0 ≤ s.timeOfDay → s.timeOfDay < 24 →
      ((updateLighting s).sunMeshVisible ↔ 6 < s.timeOfDay ∧ s.timeOfDay < 18)) := by
  refine ⟨fun s => Iff.rfl, fun s hx hy hz hd h0 h24 => ?_⟩
  have hiff := sunAngle_sin_pos_iff s.timeOfDay h0 h24
  have hvis : (updateLighting s).sunMeshVisible ↔
      0 < rotatedSunY s.orbitX s.orbitY s.orbitZ s.sunDistance s.timeOfDay := Iff.rfl
  rw [hx, hy, hz, hd] at hvis
  rw [hvis, rotatedSunY_zero_orbit]
  push_cast
  constructor
  · intro hv
    exact hiff.mp (by nlinarith)
  · intro h6
    have := hiff.mpr h6
    nlinarith

/-- C4 witness at `timeOfDay = 12` with the constructor's identity orbit
rotation and distance 50. -/
theorem sun_visible_iff_witness :
    ({ initState with timeOfDay := 12 } : TODState).orbitX = 0 ∧
      ({ initState with timeOfDay := 12 } : TODState).sunDistance = 50 ∧
      (0 : ℚ) ≤ 12 ∧ (12 : ℚ) < 24 ∧
      ((updateLighting ({ initState with timeOfDay := 12 } : TODState)).sunMeshVisible ↔
        6 < ({ initState with timeOfDay := 12 } : TODState).timeOfDay ∧
          ({ initState with timeOfDay := 12 } : TODState).timeOfDay < 18) := by
  refine ⟨rfl, rfl, by norm_num, by norm_num, ?_⟩
  exact sun_visible_iff.2 ({ initState with timeOfDay := 12 }) rfl rfl rfl rfl
    (by norm_num [initState]) (by norm_num [initState])

/-- C5: `getColorsForTime` is the constant noon preset on the plateau
`[11, 15)`; consequently at `timeOfDay = 12` with global sun intensity 1,
`update` writes directional-light intensity
`noonPreset.sunIntensity * 1 = 2.0`, the noon sun color, and leaves the sun
mesh visible. -/
theorem noon_plateau :
    (∀ t : ℚ, 11 ≤ t → t < 15 → getColorsForTime t = timeColorPresets.noon) ∧
    (∀ dt : ℚ,
      (update dt ({ initState with timeOfDay := 12, timeSpeed := 0, sunIntensity := 1 } :
        TODState)).lightIntensity = timeColorPresets.noon.sunIntensity * 1 ∧
      (update dt ({ initState with timeOfDay := 12, timeSpeed := 0, sunIntensity := 1 } :
        TODState)).lightIntensity = 2 ∧
      (update dt ({ initState with timeOfDay := 12, timeSpeed := 0, sunIntensity := 1 } :
        TODState)).lightColor = timeColorPresets.noon.sun ∧
      (update dt ({ initState with timeOfDay := 12, timeSpeed := 0, sunIntensity := 1 } :
        TODState)).sunMeshVisible) := by
  have hplateau : ∀ t : ℚ, 11 ≤ t → t < 15 → getColorsForTime t = timeColorPresets.noon := by
    intro t h1 h2
    unfold getColorsForTime
    rw [if_neg (by rintro ⟨_, h⟩; linarith), if_neg (by rintro ⟨_, h⟩; linarith),
      if_neg (by rintro ⟨_, h⟩; linarith), if_neg (by rintro ⟨_, h⟩; linarith),
      if_pos ⟨h1, h2⟩]
  refine ⟨hplateau, fun dt => ?_⟩
  have hcol : getColorsForTime (12 : ℚ) = timeColorPresets.noon :=
    hplateau 12 (by norm_num) (by norm_num)
  have hvis : (0 : ℝ) < rotatedSunY 0 0 0 50 12 := by
    rw [rotatedSunY_zero_orbit]
    have ha : sunAngle (12 : ℚ) = Real.pi / 2 := by unfold sunAngle; push_cast; ring
    rw [ha, Real.sin_pi_div_two]
    norm_num
  refine ⟨?_, ?_, ?_, ?_⟩
  · simp [update, updateLighting, initState, hcol]
  · simp [update, updateLighting, initState, hcol, timeColorPresets.noon]
  · simp [update, updateLighting, initState, hcol]
  · show (0 : ℝ) < rotatedSunY 0 0 0 50 12
    exact hvis

/-- C5 witness: the plateau instantiated at `t = 13` and the end-to-end
scenario at `dt = 1`. -/
theorem noon_plateau_witness :
    (11 : ℚ) ≤ 13 ∧ (13 : ℚ) < 15 ∧ getColorsForTime 13 = timeColorPresets.noon ∧
      (update 1 ({ initState with timeOfDay := 12, timeSpeed := 0, sunIntensity := 1 } :
        TODState)).lightIntensity = 2 := by
  exact ⟨by norm_num, by norm_num, noon_plateau.1 13 (by norm_num) (by norm_num),
    (noon_plateau.2 1).2.1⟩

/-! ## Player integrator lemmas -/

lemma updatePlayerMovement_const (dt yaw : ℝ) (k : Keys) (s : PlayerState) :
    (updatePlayerMovement dt yaw k s).gravity = s.gravity ∧
    (updatePlayerMovement dt yaw k s).groundLevel = s.groundLevel ∧
    (updatePlayerMovement dt yaw k s).jumpForce = s.jumpForce ∧
    (updatePlayerMovement dt yaw k s).speed = s.speed ∧
    (updatePlayerMovement dt yaw k s).fastSpeed = s.fastSpeed := by
  simp only [updatePlayerMovement]
  split_ifs <;> exact ⟨rfl, rfl, rfl, rfl, rfl⟩

lemma updatePlayerMovement_ge_ground (dt yaw : ℝ) (k : Keys) (s : PlayerState) :
    s.groundLevel ≤ (updatePlayerMovement dt yaw k s).position.y := by
  simp only [updatePlayerMovement]
  split_ifs <;> first
    | exact le_refl _
    | exact le_of_lt (lt_of_not_le (by assumption))

/-- A no-jump tick from the ground with downward vertical velocity clamps
right back to the ground. -/
lemma updatePlayerMovement_stay_grounded (dt yaw : ℝ) (k : Keys) (s : PlayerState)
    (hj : k.jump = false) (hdt : 0 < dt) (hgrav : s.gravity < 0)
    (hv : s.velocity.y ≤ 0) (hpos : s.position.y = s.groundLevel) :
    (updatePlayerMovement dt yaw k s).position.y = s.groundLevel ∧
    (updatePlayerMovement dt yaw k s).velocity.y = 0 ∧
    (updatePlayerMovement dt yaw k s).isGrounded = true := by
  have hvy : s.velocity.y + s.gravity * dt ≤ 0 := by nlinarith
  have hten : s.position.y + (s.velocity.y + s.gravity * dt) * dt ≤ s.groundLevel := by
    nlinarith
  simp only [updatePlayerMovement, hj, Bool.false_and, if_false, Bool.false_eq_true]
  rw [if_pos hten]
  exact ⟨rfl, rfl, rfl⟩

/-- A jump tick from a grounded state: the vertical velocity is overwritten
with `jumpForce` and the grounded flag cleared; with positive `jumpForce`
and `dt` the clamp does not fire. -/
lemma updatePlayerMovement_jump (dt yaw : ℝ) (k : Keys) (s : PlayerState)
    (hj : k.jump = true) (hg : s.isGrounded = true) (hdt : 0 < dt)
    (hF : 0 < s.jumpForce) (hpos : s.position.y = s.groundLevel) :
    (updatePlayerMovement dt yaw k s).velocity.y = s.jumpForce ∧
    (updatePlayerMovement dt yaw k s).position.y = s.groundLevel + s.jumpForce * dt ∧
    (updatePlayerMovement dt yaw k s).isGrounded = false := by
  have hten : ¬ s.position.y + s.jumpForce * dt ≤ s.groundLevel := by nlinarith
  simp only [updatePlayerMovement, hj, hg, Bool.and_self, if_true]
  rw [if_neg hten]
  exact ⟨rfl, by rw [hpos], rfl⟩

/-- An airborne tick that stays airborne follows the unclamped ballistic
update, and its tentative position stays strictly above the ground. -/
lemma updatePlayerMovement_airborne (dt yaw : ℝ) (k : Keys) (s : PlayerState)
    (hg : s.isGrounded = false)
    (hout : (updatePlayerMovement dt yaw k s).isGrounded = false) :
    (updatePlayerMovement dt yaw k s).velocity.y = s.velocity.y + s.gravity * dt ∧
    (updatePlayerMovement dt yaw k s).position.y =
      s.position.y + (s.velocity.y + s.gravity * dt) * dt ∧
    s.groundLevel < s.position.y + (s.velocity.y + s.gravity * dt) * dt := by
  by_cases hten : s.position.y + (s.velocity.y + s.gravity * dt) * dt ≤ s.groundLevel
  · exfalso
    have : (updatePlayerMovement dt yaw k s).isGrounded = true := by
      simp only [updatePlayerMovement, hg, Bool.and_false, if_false, Bool.false_eq_true]
      rw [if_pos hten]
    rw [this] at hout
    simp at hout
  · constructor
    · simp only [updatePlayerMovement, hg, Bool.and_false, if_false, Bool.false_eq_true]
      rw [if_neg hten]
    · exact ⟨by simp only [updatePlayerMovement, hg, Bool.and_false, if_false,
        Bool.false_eq_true]; rw [if_neg hten], lt_of_not_le hten⟩

/-- An airborne tick that comes out grounded went through the ground clamp:
the position is snapped to the ground level and the vertical velocity
zeroed. -/
lemma updatePlayerMovement_landing (dt yaw : ℝ) (k : Keys) (s : PlayerState)
    (hg : s.isGrounded = false)
    (hout : (updatePlayerMovement dt yaw k s).isGrounded = true) :
    (updatePlayerMovement dt yaw k s).position.y = s.groundLevel ∧
    (updatePlayerMovement dt yaw k s).velocity.y = 0 := by
  by_cases hten : s.position.y + (s.velocity.y + s.gravity * dt) * dt ≤ s.groundLevel
  · simp only [updatePlayerMovement, hg, Bool.and_false, if_false, Bool.false_eq_true]
    rw [if_pos hten]
    exact ⟨rfl, rfl⟩
  · exfalso
    have : (updatePlayerMovement dt yaw k s).isGrounded = false := by
      simp only [updatePlayerMovement, hg, Bool.and_false, if_false, Bool.false_eq_true]
      rw [if_neg hten]
    rw [this] at hout
    exact Bool.false_ne_true hout

lemma moveDirRaw_y (yaw : ℝ) (k : Keys) : (moveDirRaw yaw k).y = 0 := by
  simp only [moveDirRaw, Vec3.add, Vec3.sub, getForwardVector, getRightVector]
  split_ifs <;> norm_num

/-- C7: the grounded integrator never ends a tick below the ground plane,
and from a resting grounded state with no jump key held (and at most one
tick of accumulated gravity in the vertical velocity) the position stays
exactly at `groundLevel` forever. -/
theorem ground_plane_invariant :
    (∀ (dt yaw : ℝ) (k : Keys) (s : PlayerState),
      s.groundLevel ≤ (updatePlayerMovement dt yaw k s).position.y) ∧
    (∀ (dt yaw : ℝ) (k : Keys) (s : PlayerState),
      0 < dt → s.gravity < 0 → k.jump = false → s.isGrounded = true →
      s.position.y = s.groundLevel →
      s.gravity * dt ≤ s.velocity.y → s.velocity.y ≤ 0 →
      ∀ n : ℕ, ((updatePlayerMovement dt yaw k)^[n] s).position.y = s.groundLevel) := by
  refine ⟨fun dt yaw k s => updatePlayerMovement_ge_ground dt yaw k s,
    fun dt yaw k s hdt hgrav hj hg hpos hvlo hvhi => ?_⟩
  suffices h : ∀ n : ℕ, ((updatePlayerMovement dt yaw k)^[n] s).position.y = s.groundLevel ∧
      ((updatePlayerMovement dt yaw k)^[n] s).velocity.y ≤ 0 ∧
      ((updatePlayerMovement dt yaw k)^[n] s).gravity = s.gravity ∧
      ((updatePlayerMovement dt yaw k)^[n] s).groundLevel = s.groundLevel by
    exact fun n => (h n).1
  intro n
  induction n with
  | zero => exact ⟨hpos, hvhi, rfl, rfl⟩
  | succ n ih =>
    obtain ⟨hp, hv, hgr, hgl⟩ := ih
    rw [Function.iterate_succ_apply']
    have hstay := updatePlayerMovement_stay_grounded dt yaw k
      ((updatePlayerMovement dt yaw k)^[n] s) hj hdt (by rw [hgr]; exact hgrav) hv
      (by rw [hp, hgl])
    have hconst := updatePlayerMovement_const dt yaw k ((updatePlayerMovement dt yaw k)^[n] s)
    exact ⟨by rw [hstay.1, hgl], by rw [hstay.2.1], by rw [hconst.1, hgr],
      by rw [hconst.2.1, hgl]⟩

/-- C7 witness: the resting player stays on the ground across two ticks of
one second each. -/
theorem ground_plane_invariant_witness :
    (0 : ℝ) < 1 ∧ groundedPlayer.gravity < 0 ∧ Keys.none.jump = false ∧
      groundedPlayer.isGrounded = true ∧
      groundedPlayer.position.y = groundedPlayer.groundLevel ∧
      groundedPlayer.gravity * 1 ≤ groundedPlayer.velocity.y ∧
      groundedPlayer.velocity.y ≤ 0 ∧
      ((updatePlayerMovement 1 0 Keys.none)^[2] groundedPlayer).position.y =
        groundedPlayer.groundLevel := by
  refine ⟨by norm_num, by norm_num [groundedPlayer], rfl, rfl,
    by norm_num [groundedPlayer], by norm_num [groundedPlayer],
    by norm_num [groundedPlayer], ?_⟩
  exact ground_plane_invariant.2 1 0 Keys.none groundedPlayer (by norm_num)
    (by norm_num [groundedPlayer]) rfl rfl (by norm_num [groundedPlayer])
    (by norm_num [groundedPlayer]) (by norm_num [groundedPlayer]) 2

/-- C9: in free-camera mode, holding up and down together cancels to zero
vertical motion before normalization, so one tick leaves the camera's y
coordinate unchanged, for every yaw, speed, dt and any combination of the
other keys. -/
theorem free_camera_up_down_cancel (dt yaw speed fastSpeed : ℝ) (camPos : Vec3)
    (f b l r j sp : Bool) :
    (updateFreeCamera dt yaw ⟨f, b, l, r, j, true, true, sp⟩ speed fastSpeed camPos).y
      = camPos.y := by
  have hy := moveDirRaw_y yaw ⟨f, b, l, r, j, true, true, sp⟩
  simp only [updateFreeCamera, normalizeIfPos, Vec3.normalize, Vec3.add, Vec3.smul]
  simp [hy]
  split_ifs <;> simp

lemma updatePlayerMovement_horiz (dt yaw : ℝ) (k : Keys) (s : PlayerState) :
    (updatePlayerMovement dt yaw k s).position.x =
      s.position.x + ((normalizeIfPos (moveDirRaw yaw k)).smul
        (if k.sprint then s.fastSpeed else s.speed)).x * dt ∧
    (updatePlayerMovement dt yaw k s).position.z =
      s.position.z + ((normalizeIfPos (moveDirRaw yaw k)).smul
        (if k.sprint then s.fastSpeed else s.speed)).z * dt := by
  simp only [updatePlayerMovement]
  split_ifs <;> exact ⟨rfl, rfl⟩

/-- The horizontal components of the speed-scaled normalized move direction
have squared norm `c ^ 2` whenever the raw direction is horizontal and
nonzero. -/
lemma normalizeIfPos_horiz_sq (v : Vec3) (c : ℝ) (hy : v.y = 0) (hv : 0 < v.len) :
    ((normalizeIfPos v).smul c).x ^ 2 + ((normalizeIfPos v).smul c).z ^ 2 = c ^ 2 := by
  have hne : v.len ≠ 0 := ne_of_gt hv
  have hL : v.len ^ 2 = v.x ^ 2 + v.y ^ 2 + v.z ^ 2 := Real.sq_sqrt (by positivity)
  have hA : v.x ^ 2 + v.z ^ 2 = v.len ^ 2 := by rw [hL, hy]; ring
  rw [normalizeIfPos, if_pos hv]
  simp only [Vec3.normalize, Vec3.smul]
  field_simp
  linear_combination c ^ 2 * hA

/-- C8: one grounded tick with forward and right held moves the player
horizontally by exactly `speed * dt`, the same magnitude as with forward
alone: the move direction is normalized when nonzero, so diagonals get no
speed boost. -/
theorem diagonal_not_faster :
    ∀ (dt yaw : ℝ) (s : PlayerState), 0 ≤ s.speed → 0 ≤ dt →
      Real.sqrt
        (((updatePlayerMovement dt yaw ⟨true, false, false, true, false, false, false, false⟩
              s).position.x - s.position.x) ^ 2 +
          ((updatePlayerMovement dt yaw ⟨true, false, false, true, false, false, false, false⟩
              s).position.z - s.position.z) ^ 2) = s.speed * dt ∧
      Real.sqrt
        (((updatePlayerMovement dt yaw ⟨true, false, false, false, false, false, false, false⟩
              s).position.x - s.position.x) ^ 2 +
          ((updatePlayerMovement dt yaw ⟨true, false, false, false, false, false, false, false⟩
              s).position.z - s.position.z) ^ 2) = s.speed * dt := by
  intro dt yaw s hs hd
  have hsc := Real.sin_sq_add_cos_sq yaw
  constructor
  · obtain ⟨hx, hz⟩ := updatePlayerMovement_horiz dt yaw
      ⟨true, false, false, true, false, false, false, false⟩ s
    have hspd : (if (⟨true, false, false, true, false, false, false, false⟩ : Keys).sprint
        then s.fastSpeed else s.speed) = s.speed := rfl
    rw [hspd] at hx hz
    have hm : moveDirRaw yaw (⟨true, false, false, true, false, false, false, false⟩ : Keys) =
        ⟨0 + -Real.sin yaw + Real.cos yaw, 0 + 0 + 0,
          0 + -Real.cos yaw + -Real.sin yaw⟩ := rfl
    have hlpos : 0 < (moveDirRaw yaw
        (⟨true, false, false, true, false, false, false, false⟩ : Keys)).len := by
      rw [hm]
      apply Real.sqrt_pos.mpr
      dsimp only
      nlinarith
    have key := normalizeIfPos_horiz_sq
      (moveDirRaw yaw (⟨true, false, false, true, false, false, false, false⟩ : Keys))
      s.speed (moveDirRaw_y yaw _) hlpos
    rw [hx, hz]
    have hE : (s.position.x + ((normalizeIfPos (moveDirRaw yaw
          (⟨true, false, false, true, false, false, false, false⟩ : Keys))).smul
            s.speed).x * dt - s.position.x) ^ 2 +
        (s.position.z + ((normalizeIfPos (moveDirRaw yaw
          (⟨true, false, false, true, false, false, false, false⟩ : Keys))).smul
            s.speed).z * dt - s.position.z) ^ 2 = (s.speed * dt) ^ 2 := by
      linear_combination dt ^ 2 * key
    rw [hE]
    exact Real.sqrt_sq (mul_nonneg hs hd)
  · obtain ⟨hx, hz⟩ := updatePlayerMovement_horiz dt yaw
      ⟨true, false, false, false, false, false, false, false⟩ s
    have hspd : (if (⟨true, false, false, false, false, false, false, false⟩ : Keys).sprint
        then s.fastSpeed else s.speed) = s.speed := rfl
    rw [hspd] at hx hz
    have hm : moveDirRaw yaw (⟨true, false, false, false, false, false, false, false⟩ : Keys) =
        ⟨0 + -Real.sin yaw, 0 + 0, 0 + -Real.cos yaw⟩ := rfl
    have hlpos : 0 < (moveDirRaw yaw
        (⟨true, false, false, false, false, false, false, false⟩ : Keys)).len := by
      rw [hm]
      apply Real.sqrt_pos.mpr
      dsimp only
      nlinarith
    have key := normalizeIfPos_horiz_sq
      (moveDirRaw yaw (⟨true, false, false, false, false, false, false, false⟩ : Keys))
      s.speed (moveDirRaw_y yaw _) hlpos
    rw [hx, hz]
    have hE : (s.position.x + ((normalizeIfPos (moveDirRaw yaw
          (⟨true, false, false, false, false, false, false, false⟩ : Keys))).smul
            s.speed).x * dt - s.position.x) ^ 2 +
        (s.position.z + ((normalizeIfPos (moveDirRaw yaw
          (⟨true, false, false, false, false, false, false, false⟩ : Keys))).smul
            s.speed).z * dt - s.position.z) ^ 2 = (s.speed * dt) ^ 2 := by
      linear_combination dt ^ 2 * key
    rw [hE]
    exact Real.sqrt_sq (mul_nonneg hs hd)

/-- C8 witness at `dt = 1`, `yaw = 0`, the constructor's player. -/
theorem diagonal_not_faster_witness :
    (0 : ℝ) ≤ groundedPlayer.speed ∧ (0 : ℝ) ≤ 1 ∧
      Real.sqrt
        (((updatePlayerMovement 1 0 ⟨true, false, false, true, false, false, false, false⟩
              groundedPlayer).position.x - groundedPlayer.position.x) ^ 2 +
          ((updatePlayerMovement 1 0 ⟨true, false, false, true, false, false, false, false⟩
              groundedPlayer).position.z - groundedPlayer.position.z) ^ 2) =
        groundedPlayer.speed * 1 := by
  refine ⟨by norm_num [groundedPlayer], by norm_num, ?_⟩
  exact (diagonal_not_faster 1 0 groundedPlayer (by norm_num [groundedPlayer])
    (by norm_num)).1

lemma iterate_const (dt yaw : ℝ) (k : Keys) (u : PlayerState) (n : ℕ) :
    ((updatePlayerMovement dt yaw k)^[n] u).gravity = u.gravity ∧
    ((updatePlayerMovement dt yaw k)^[n] u).groundLevel = u.groundLevel := by
  induction n with
  | zero => exact ⟨rfl, rfl⟩
  | succ n ih =>
    rw [Function.iterate_succ_apply']
    have h := updatePlayerMovement_const dt yaw k ((updatePlayerMovement dt yaw k)^[n] u)
    exact ⟨h.1.trans ih.1, h.2.1.trans ih.2⟩

/-- An airborne player under negative gravity reaches the ground after
finitely many ticks: if it never did, the ballistic closed form would drive
the height below `groundLevel`, contradicting the strict above-ground bound
of every non-clamping tick. -/
lemma falls_to_ground (dt yaw : ℝ) (k : Keys) (u : PlayerState)
    (hdt : 0 < dt) (hgrav : u.gravity < 0) (hg : u.isGrounded = false) :
    ∃ n : ℕ, ((updatePlayerMovement dt yaw k)^[n] u).isGrounded = true := by
  by_contra hnone
  push_neg at hnone
  have hair : ∀ n : ℕ, ((updatePlayerMovement dt yaw k)^[n] u).isGrounded = false :=
    fun n => Bool.eq_false_iff.mpr (hnone n)
  have hstep : ∀ n : ℕ,
      (updatePlayerMovement dt yaw k ((updatePlayerMovement dt yaw k)^[n] u)).isGrounded
        = false := by
    intro n
    have h := hair (n + 1)
    rw [Function.iterate_succ_apply'] at h
    exact h
  have hvel : ∀ n : ℕ, ((updatePlayerMovement dt yaw k)^[n] u).velocity.y
      = u.velocity.y + n * (u.gravity * dt) := by
    intro n
    induction n with
    | zero => simp
    | succ n ih =>
      rw [Function.iterate_succ_apply']
      have h := updatePlayerMovement_airborne dt yaw k _ (hair n) (hstep n)
      rw [h.1, ih, (iterate_const dt yaw k u n).1]
      push_cast
      ring
  have hpos : ∀ n : ℕ, ((updatePlayerMovement dt yaw k)^[n] u).position.y
      = u.position.y + n * (u.velocity.y * dt)
        + (n * (n + 1) / 2) * (u.gravity * dt ^ 2) := by
    intro n
    induction n with
    | zero => simp
    | succ n ih =>
      rw [Function.iterate_succ_apply']
      have h := updatePlayerMovement_airborne dt yaw k _ (hair n) (hstep n)
      rw [h.2.1, ih, hvel n, (iterate_const dt yaw k u n).1]
      push_cast
      ring
  have habove : ∀ n : ℕ,
      u.groundLevel < ((updatePlayerMovement dt yaw k)^[n + 1] u).position.y := by
    intro n
    have h := updatePlayerMovement_airborne dt yaw k _ (hair n) (hstep n)
    rw [Function.iterate_succ_apply', h.2.1]
    have hlt := h.2.2
    rw [(iterate_const dt yaw k u n).2] at hlt
    exact hlt
  have hB : 0 < -(u.gravity * dt ^ 2) := by
    have := mul_neg_of_neg_of_pos hgrav (pow_pos hdt 2)
    linarith
  obtain ⟨m, hm⟩ := exists_nat_gt
    ((|u.velocity.y * dt| + |u.position.y - u.groundLevel| + 1) * 2 / -(u.gravity * dt ^ 2))
  have hM1 : (1 : ℝ) ≤ (m : ℝ) + 1 := le_add_of_nonneg_left (Nat.cast_nonneg m)
  have hMB : (|u.velocity.y * dt| + |u.position.y - u.groundLevel| + 1) * 2
      < ((m : ℝ) + 1) * -(u.gravity * dt ^ 2) := by
    rw [div_lt_iff₀ hB] at hm
    nlinarith [abs_nonneg (u.velocity.y * dt), abs_nonneg (u.position.y - u.groundLevel)]
  have hle : u.position.y + ((m : ℝ) + 1) * (u.velocity.y * dt)
      + (((m : ℝ) + 1) * (((m : ℝ) + 1) + 1) / 2) * (u.gravity * dt ^ 2)
      ≤ u.groundLevel := by
    have habsA : ((m : ℝ) + 1) * (u.velocity.y * dt)
        ≤ ((m : ℝ) + 1) * |u.velocity.y * dt| :=
      mul_le_mul_of_nonneg_left (le_abs_self _) (by positivity)
    have habsP : u.position.y - u.groundLevel ≤ |u.position.y - u.groundLevel| :=
      le_abs_self _
    nlinarith [abs_nonneg (u.velocity.y * dt), abs_nonneg (u.position.y - u.groundLevel),
      mul_le_mul_of_nonneg_left hMB.le (sub_nonneg.mpr hM1)]
  have hcontra := habove m
  rw [hpos (m + 1)] at hcontra
  push_cast at hcontra
  linarith

/-- C6: pressing jump while grounded sets the vertical velocity to
`jumpForce` and clears the grounded flag; after finitely many further ticks
without jump input the player lands: the position returns to `groundLevel`,
the grounded flag is set, and the vertical velocity is zeroed exactly at
the landing step. -/
theorem jump_then_fall :
    ∀ (dt yaw : ℝ) (k1 k2 : Keys) (s : PlayerState),
      0 < dt → s.gravity < 0 → 0 < s.jumpForce →
      k1.jump = true → k2.jump = false →
      s.isGrounded = true → s.position.y = s.groundLevel →
      (updatePlayerMovement dt yaw k1 s).velocity.y = s.jumpForce ∧
      (updatePlayerMovement dt yaw k1 s).isGrounded = false ∧
      ∃ n : ℕ,
        ((updatePlayerMovement dt yaw k2)^[n] (updatePlayerMovement dt yaw k1 s)).position.y
            = s.groundLevel ∧
        ((updatePlayerMovement dt yaw k2)^[n] (updatePlayerMovement dt yaw k1 s)).isGrounded
            = true ∧
        ((updatePlayerMovement dt yaw k2)^[n] (updatePlayerMovement dt yaw k1 s)).velocity.y
            = 0 := by
  intro dt yaw k1 k2 s hdt hgrav hF hj1 hj2 hg hpos
  obtain ⟨hv1, hp1, hg1⟩ := updatePlayerMovement_jump dt yaw k1 s hj1 hg hdt hF hpos
  refine ⟨hv1, hg1, ?_⟩
  set u := updatePlayerMovement dt yaw k1 s with hu
  have hugrav : u.gravity = s.gravity := (updatePlayerMovement_const dt yaw k1 s).1
  have hugl : u.groundLevel = s.groundLevel := (updatePlayerMovement_const dt yaw k1 s).2.1
  have hex : ∃ n : ℕ, ((updatePlayerMovement dt yaw k2)^[n] u).isGrounded = true :=
    falls_to_ground dt yaw k2 u hdt (by rw [hugrav]; exact hgrav) hg1
  have hn0 : ((updatePlayerMovement dt yaw k2)^[Nat.find hex] u).isGrounded = true :=
    Nat.find_spec hex
  have hne : Nat.find hex ≠ 0 := by
    intro h0
    rw [h0] at hn0
    simp [hg1] at hn0
  obtain ⟨m, hm⟩ := Nat.exists_eq_succ_of_ne_zero hne
  have hmair : ((updatePlayerMovement dt yaw k2)^[m] u).isGrounded = false := by
    refine Bool.eq_false_iff.mpr (Nat.find_min hex ?_)
    rw [hm]
    exact Nat.lt_succ_self m
  have hout : (updatePlayerMovement dt yaw k2
      ((updatePlayerMovement dt yaw k2)^[m] u)).isGrounded = true := by
    have h := hn0
    rw [hm, Function.iterate_succ_apply'] at h
    exact h
  have hland := updatePlayerMovement_landing dt yaw k2 _ hmair hout
  refine ⟨Nat.find hex, ?_, hn0, ?_⟩
  · rw [hm, Function.iterate_succ_apply', hland.1, (iterate_const dt yaw k2 u m).2, hugl]
  · rw [hm, Function.iterate_succ_apply', hland.2]

/-- C6 witness: the constructor's player (jump force 0.3, gravity −1,
ground level 0.3) jumps at `dt = 1`, `yaw = 0` and eventually lands. -/
theorem jump_then_fall_witness :
    (0 : ℝ) < 1 ∧ groundedPlayer.gravity < 0 ∧ 0 < groundedPlayer.jumpForce ∧
      (⟨false, false, false, false, true, false, false, false⟩ : Keys).jump = true ∧
      Keys.none.jump = false ∧ groundedPlayer.isGrounded = true ∧
      groundedPlayer.position.y = groundedPlayer.groundLevel ∧
      ((updatePlayerMovement 1 0
          ⟨false, false, false, false, true, false, false, false⟩
          groundedPlayer).velocity.y = groundedPlayer.jumpForce ∧
        (updatePlayerMovement 1 0
          ⟨false, false, false, false, true, false, false, false⟩
          groundedPlayer).isGrounded = false ∧
        ∃ n : ℕ,
          ((updatePlayerMovement 1 0 Keys.none)^[n]
              (updatePlayerMovement 1 0
                ⟨false, false, false, false, true, false, false, false⟩
                groundedPlayer)).position.y = groundedPlayer.groundLevel ∧
          ((updatePlayerMovement 1 0 Keys.none)^[n]
              (updatePlayerMovement 1 0
                ⟨false, false, false, false, true, false, false, false⟩
                groundedPlayer)).isGrounded = true ∧
          ((updatePlayerMovement 1 0 Keys.none)^[n]
              (updatePlayerMovement 1 0
                ⟨false, false, false, false, true, false, false, false⟩
                groundedPlayer)).velocity.y = 0) := by
  refine ⟨by norm_num, by norm_num [groundedPlayer], by norm_num [groundedPlayer],
    rfl, rfl, rfl, by norm_num [groundedPlayer], ?_⟩
  exact jump_then_fall 1 0 ⟨false, false, false, false, true, false, false, false⟩
    Keys.none groundedPlayer (by norm_num) (by norm_num [groundedPlayer])
    (by norm_num [groundedPlayer]) rfl rfl rfl (by norm_num [groundedPlayer])

end GltfViewer
